import Mathlib

/-!
Verification of the plexsubs subtitle-acquisition pipeline.

Shallow embedding of the core of the `plexsubs` repository:
release-fingerprint scoring (`core/release_matcher.py`), provider search
result construction (`providers/opensubtitles.py`), candidate ranking and
the download orchestration (`core/subtitle_manager.py`), the generic
bounded-retry wrapper (`utils/retry.py`) and the post-download session
activation (`plex/webhook.py`).

Python strings are modelled as `List Char`, Python floats arising from
`matches / len(groups)` as `ℚ` (the scores are exact small rationals and
every branch condition on them is integral), Python ints as `ℤ`, and
fallible or effectful collaborator calls (filesystem probe, provider
search and download, the language verifier, Plex session calls) as
explicit parameters describing their outcomes per invocation.
-/

namespace Plexsubs

/-- Python `str.upper()` restricted to the ASCII mapping used by release
tokens (`Char.toUpper`). -/
def upper (s : List Char) : List Char := s.map Char.toUpper

/-- Python `str.lower()` (`Char.toLower`). -/
def lower (s : List Char) : List Char := s.map Char.toLower

/-- Python's substring test `needle in hay` on strings. -/
def strContains (hay needle : List Char) : Bool := decide (needle <:+: hay)

/-- The number of fingerprint tokens found in the combined subtitle text:
the `for group in media_release_groups: if group.upper() in combined`
loop of `calculate_match_score` (release_matcher.py lines 77-80). -/
def matchCount (subtitle_release subtitle_filename : List Char)
    (media_release_groups : List (List Char)) : ℕ :=
  media_release_groups.countP fun g =>
    strContains (upper (subtitle_release ++ ' ' :: subtitle_filename)) (upper g)

/-- Translation of `calculate_match_score` from core/release_matcher.py (lines 59-86):
empty fingerprint gives `(0.0, False)`; otherwise the score is
`matches / len(media_release_groups)` over the uppercased
`f"{subtitle_release} {subtitle_filename}"`, and the perfect flag is
`matches == len(media_release_groups) and matches > 0`. -/
def calculate_match_score (subtitle_release subtitle_filename : List Char)
    (media_release_groups : List (List Char)) : ℚ × Bool :=
  if media_release_groups = [] then (0, false)
  else
    let m := matchCount subtitle_release subtitle_filename media_release_groups
    ((m : ℚ) / (media_release_groups.length : ℚ),
      decide (m = media_release_groups.length ∧ 0 < m))

/-- C6: for a non-empty fingerprint of n tokens of which k occur as
substrings of the uppercase concatenation of label, a space and filename,
the score is k/n and the perfect flag holds iff k = n; for an empty
fingerprint the result is score 0 and flag false. -/
theorem c6_score_spec (rel fn : List Char) (groups : List (List Char)) :
    (groups = [] → calculate_match_score rel fn groups = (0, false)) ∧
    (groups ≠ [] →
      (calculate_match_score rel fn groups).1 =
        (matchCount rel fn groups : ℚ) / (groups.length : ℚ) ∧
      ((calculate_match_score rel fn groups).2 = true ↔
        matchCount rel fn groups = groups.length)) := by
  constructor
  · intro h
    simp [calculate_match_score, h]
  · intro h
    have hn : 0 < groups.length := List.length_pos.mpr h
    constructor
    · simp [calculate_match_score, h]
    · simp only [calculate_match_score, if_neg h, decide_eq_true_eq]
      constructor
      · rintro ⟨hk, _⟩; exact hk
      · intro hk; exact ⟨hk, hk ▸ hn⟩

/-- Witness for `c6_score_spec` at fingerprint `["X264", "WEB"]` against
release "Movie.X264" and filename "movie.mkv": one of two tokens matches. -/
theorem c6_score_spec_witness :
    calculate_match_score "Movie.x264".toList "movie.mkv".toList
      ["X264".toList, "WEB".toList] = (1 / 2, false) := by
  have h := (c6_score_spec "Movie.x264".toList "movie.mkv".toList
    ["X264".toList, "WEB".toList]).2 (by decide)
  have hk : matchCount "Movie.x264".toList "movie.mkv".toList
      ["X264".toList, "WEB".toList] = 1 := by decide
  have h2 : (calculate_match_score "Movie.x264".toList "movie.mkv".toList
      ["X264".toList, "WEB".toList]).2 = false := by
    rcases h with ⟨_, hiff⟩
    rcases Bool.eq_false_or_eq_true (calculate_match_score "Movie.x264".toList
        "movie.mkv".toList ["X264".toList, "WEB".toList]).2 with hb | hb
    · exact absurd (hiff.mp hb) (by rw [hk]; decide)
    · exact hb
  have h1 := h.1
  rw [hk] at h1
  have hlen : ((["X264".toList, "WEB".toList] : List (List Char)).length : ℚ) = 2 := by
    norm_num
  rw [hlen] at h1
  have hone : ((1 : ℕ) : ℚ) = 1 := by norm_num
  rw [hone] at h1
  exact Prod.ext_iff.mpr ⟨h1, h2⟩

/-- The `SubtitleResult` dataclass from providers/base.py (lines 8-27),
with its field defaults. `download_params` is the `{"file_id": int}`
payload. -/
structure SubtitleResult where
  id : List Char
  language : List Char
  release : List Char
  filename : List Char
  download_url : Option (List Char) := none
  download_params : Option ℤ := none
  is_perfect_match : Bool := false
  provider : List Char := []
  score : ℚ := 0
  download_count : ℤ := 0
deriving DecidableEq

/-- One entry of the `files` array of an OpenSubtitles API subtitle. -/
structure ApiFile where
  file_id : ℤ
  file_name : List Char
deriving DecidableEq

/-- The `attributes` of one subtitle in the OpenSubtitles API response
used by `OpenSubtitlesProvider.search`. -/
structure ApiSubtitle where
  language : List Char
  release : List Char
  files : List ApiFile
  download_count : ℤ
deriving DecidableEq

/-- The result-construction loop of `OpenSubtitlesProvider.search`
(providers/opensubtitles.py lines 220-243): skip entries whose lowercased
language is not allowed or whose `files` list is empty, then build a
`SubtitleResult` from the first file. The `allowed` list abstracts
`get_allowed_languages(language)` (an external ISO-639 table lookup).
Note the construction passes neither `is_perfect_match` nor `score`, so
both keep their dataclass defaults; the `release_groups` argument of
`search` is never used. -/
def searchResults (providerName language : List Char)
    (allowed : List (List Char)) (subs : List ApiSubtitle) :
    List SubtitleResult :=
  subs.filterMap fun sub =>
    if lower sub.language ∈ allowed then
      match sub.files with
      | [] => none
      | f :: _ =>
        some { id := (toString f.file_id).toList
               language := language
               release := sub.release
               filename := f.file_name
               download_params := some f.file_id
               provider := providerName
               download_count := sub.download_count }
    else none

/-- The Python sort key of `SubtitleManager._try_download`
(subtitle_manager.py lines 227-229):
`(not is_perfect_match, -download_count, -score)`, compared
lexicographically with `False < True`. -/
def sortKey (r : SubtitleResult) : Bool × ℤ × ℚ :=
  (!r.is_perfect_match, -r.download_count, -r.score)

/-- Lexicographic comparison of Python sort-key triples. -/
def tupLe (x y : Bool × ℤ × ℚ) : Prop :=
  x.1 < y.1 ∨ (x.1 = y.1 ∧ (x.2.1 < y.2.1 ∨ (x.2.1 = y.2.1 ∧ x.2.2 ≤ y.2.2)))

/-- The candidate order used by the ranking sort. -/
def keyLe (a b : SubtitleResult) : Prop := tupLe (sortKey a) (sortKey b)

instance : DecidableRel tupLe := fun _ _ => by
  unfold tupLe; infer_instance

instance : DecidableRel keyLe := fun _ _ => by
  unfold keyLe; infer_instance

theorem tupLe_total (x y : Bool × ℤ × ℚ) : tupLe x y ∨ tupLe y x := by
  unfold tupLe
  rcases lt_trichotomy x.1 y.1 with h1 | h1 | h1
  · exact Or.inl (Or.inl h1)
  · rcases lt_trichotomy x.2.1 y.2.1 with h2 | h2 | h2
    · exact Or.inl (Or.inr ⟨h1, Or.inl h2⟩)
    · rcases le_total x.2.2 y.2.2 with h3 | h3
      · exact Or.inl (Or.inr ⟨h1, Or.inr ⟨h2, h3⟩⟩)
      · exact Or.inr (Or.inr ⟨h1.symm, Or.inr ⟨h2.symm, h3⟩⟩)
    · exact Or.inr (Or.inr ⟨h1.symm, Or.inl h2⟩)
  · exact Or.inr (Or.inl h1)

theorem tupLe_trans {x y z : Bool × ℤ × ℚ} (hxy : tupLe x y) (hyz : tupLe y z) :
    tupLe x z := by
  unfold tupLe at *
  rcases hxy with h1 | ⟨h1, h1'⟩
  · rcases hyz with h2 | ⟨h2, _⟩
    · exact Or.inl (h1.trans h2)
    · exact Or.inl (h2 ▸ h1)
  · rcases hyz with h2 | ⟨h2, h2'⟩
    · exact Or.inl (h1 ▸ h2)
    · refine Or.inr ⟨h1.trans h2, ?_⟩
      rcases h1' with h3 | ⟨h3, h3'⟩
      · rcases h2' with h4 | ⟨h4, _⟩
        · exact Or.inl (h3.trans h4)
        · exact Or.inl (h4 ▸ h3)
      · rcases h2' with h4 | ⟨h4, h4'⟩
        · exact Or.inl (h3 ▸ h4)
        · exact Or.inr ⟨h3.trans h4, h3'.trans h4'⟩

instance : IsTotal SubtitleResult keyLe :=
  ⟨fun a b => tupLe_total (sortKey a) (sortKey b)⟩

instance : IsTrans SubtitleResult keyLe :=
  ⟨fun _ _ _ hab hbc => tupLe_trans hab hbc⟩

theorem keyLe_of_sortKey_eq {a b : SubtitleResult}
    (h : sortKey a = sortKey b) : keyLe a b := by
  unfold keyLe tupLe
  rw [h]
  exact Or.inr ⟨rfl, Or.inr ⟨rfl, le_refl _⟩⟩

/-- Translation of `all_results.sort(key=lambda x: (not is_perfect_match,
-download_count, -score))` from `_try_download` (subtitle_manager.py
lines 227-229). Python's `sort` is a stable sort by the key; the stable
sort by a given total preorder is unique, so it is modelled by a stable
insertion sort over the same key order. -/
def rankCandidates (l : List SubtitleResult) : List SubtitleResult :=
  l.insertionSort keyLe

/-- C5: the ranked list is a permutation of the input, totally ordered by
(perfect-match desc, popularity desc, score desc); candidates with equal
keys keep their original discovery order (the filter at every key value
is unchanged); and every perfect-match candidate precedes every
non-perfect one. -/
theorem c5_ranking_spec (l : List SubtitleResult) :
    (rankCandidates l).Perm l ∧
    (rankCandidates l).Pairwise keyLe ∧
    (∀ k : Bool × ℤ × ℚ,
      (rankCandidates l).filter (fun c => decide (sortKey c = k)) =
        l.filter (fun c => decide (sortKey c = k))) ∧
    (rankCandidates l).Pairwise
      (fun a b => b.is_perfect_match = true → a.is_perfect_match = true) := by
  have hperm : (rankCandidates l).Perm l := List.perm_insertionSort keyLe l
  have hsorted : (rankCandidates l).Pairwise keyLe :=
    List.sorted_insertionSort keyLe l
  refine ⟨hperm, hsorted, ?_, ?_⟩
  · intro k
    set p : SubtitleResult → Bool := fun c => decide (sortKey c = k) with hp
    have hpair : (l.filter p).Pairwise keyLe := by
      apply List.pairwise_of_forall_mem_list
      intro a ha b hb
      have h1 : sortKey a = k := of_decide_eq_true (List.mem_filter.mp ha).2
      have h2 : sortKey b = k := of_decide_eq_true (List.mem_filter.mp hb).2
      exact keyLe_of_sortKey_eq (h1.trans h2.symm)
    have hsub : List.Sublist (l.filter p) (rankCandidates l) :=
      List.sublist_insertionSort hpair (List.filter_sublist l)
    have hsub2 : List.Sublist ((l.filter p).filter p)
        ((rankCandidates l).filter p) := hsub.filter p
    have hidem : (l.filter p).filter p = l.filter p := by
      rw [List.filter_filter]
      simp
    rw [hidem] at hsub2
    have hpermf : ((rankCandidates l).filter p).Perm (l.filter p) :=
      hperm.filter p
    exact (hsub2.eq_of_length hpermf.length_eq.symm).symm
  · refine hsorted.imp ?_
    intro a b hab hb
    rcases hab with h1 | ⟨h1, _⟩
    · exfalso
      rw [Bool.lt_iff] at h1
      have := h1.2
      simp [sortKey, hb] at this
    · simp [sortKey, hb] at h1
      exact h1

/-- A concrete API subtitle whose release text contains every token of
the fingerprint `["X264"]`. -/
def c1ApiSub : ApiSubtitle :=
  { language := "en".toList
    release := "Movie.X264".toList
    files := [{ file_id := 7, file_name := "movie.x264.srt".toList }]
    download_count := 10 }

/-- The candidate `searchResults` builds from `c1ApiSub`. -/
def c1Result : SubtitleResult :=
  { id := "7".toList
    language := "en".toList
    release := "Movie.X264".toList
    filename := "movie.x264.srt".toList
    download_params := some 7
    provider := "opensubtitles".toList
    download_count := 10 }

/-- C1 (code bug): every candidate built by `OpenSubtitlesProvider.search`
carries `is_perfect_match = false` and `score = 0` — the construction
never consults the fingerprint (`calculate_match_score` is never called
and `release_groups` is unused) — so on the concrete input `c1ApiSub`
with non-empty fingerprint `["X264"]`, whose every token is a substring
of the uppercase release+filename, the flag is still false, contradicting
the claimed iff. -/
theorem c1_flag_never_set :
    (∀ pn lang allowed subs r, r ∈ searchResults pn lang allowed subs →
      r.is_perfect_match = false ∧ r.score = 0) ∧
    (∃ r, searchResults "opensubtitles".toList "en".toList ["en".toList]
        [c1ApiSub] = [r] ∧
      r.is_perfect_match = false ∧
      (["X264".toList] : List (List Char)) ≠ [] ∧
      ∀ g ∈ (["X264".toList] : List (List Char)),
        strContains (upper (r.release ++ r.filename)) (upper g) = true) := by
  constructor
  · intro pn lang allowed subs r hr
    rcases List.mem_filterMap.mp hr with ⟨sub, _, hsub⟩
    by_cases hl : lower sub.language ∈ allowed
    · rw [if_pos hl] at hsub
      match hf : sub.files with
      | [] => rw [hf] at hsub; exact absurd hsub (by simp)
      | f :: rest =>
        rw [hf] at hsub
        cases hsub
        exact ⟨rfl, rfl⟩
    · rw [if_neg hl] at hsub
      exact absurd hsub (by simp)
  · exact ⟨c1Result, by decide, by decide, by decide, by decide⟩

/-- Witness for the universally quantified part of `c1_flag_never_set`:
the concrete candidate produced from `c1ApiSub` has a false flag. -/
theorem c1_flag_never_set_witness :
    c1Result.is_perfect_match = false ∧ c1Result.score = 0 :=
  c1_flag_never_set.1 "opensubtitles".toList "en".toList
    ["en".toList] [c1ApiSub] c1Result (by decide)

/-- Outcome of one invocation of a wrapped operation: a returned value or
a raised exception. -/
inductive Attempt (α ε : Type) where
  | ok (a : α)
  | exc (e : ε)
deriving DecidableEq

/-- Result of running `retry_with_backoff`'s `sync_wrapper`: the returned
value, a propagated exception, or the `RuntimeError("Retry loop exited
unexpectedly")` after the loop body never runs. `tried` counts
invocations of the wrapped operation and `calls` lists the retry events
`(attempt, delay)` in order (each is a backoff sleep; `on_retry`, when
given, is invoked with exactly these arguments). -/
inductive RunOut (α ε : Type) where
  | value (a : α) (tried : ℕ) (calls : List (ℕ × ℚ))
  | raised (e : ε) (tried : ℕ) (calls : List (ℕ × ℚ))
  | runtimeError (tried : ℕ) (calls : List (ℕ × ℚ))
deriving DecidableEq

/-- Number of invocations of the wrapped operation. -/
def RunOut.tried : RunOut α ε → ℕ
  | .value _ t _ => t
  | .raised _ t _ => t
  | .runtimeError t _ => t

/-- The retry events (backoff sleeps / `on_retry` invocations). -/
def RunOut.calls : RunOut α ε → List (ℕ × ℚ)
  | .value _ _ c => c
  | .raised _ _ c => c
  | .runtimeError _ c => c

/-- The `for attempt in range(max_retries)` loop of `sync_wrapper`
(utils/retry.py lines 55-69). `remaining = max_retries - attempt` drives
the recursion; `retryable e` models `isinstance(e, exceptions)`: a caught
exception retries after `base_delay * (2**attempt)` when
`attempt < max_retries - 1` (i.e. `remaining > 1`) and otherwise
propagates; an uncaught exception propagates at once. Falling out of the
loop (only possible when `max_retries = 0`) raises the RuntimeError. -/
def syncLoop (op : ℕ → Attempt α ε) (retryable : ε → Bool) (base : ℚ) :
    (remaining attempt : ℕ) → (acc : List (ℕ × ℚ)) → RunOut α ε
  | 0, attempt, acc => .runtimeError attempt acc.reverse
  | remaining + 1, attempt, acc =>
    match op attempt with
    | .ok a => .value a (attempt + 1) acc.reverse
    | .exc e =>
      if retryable e then
        if remaining = 0 then .raised e (attempt + 1) acc.reverse
        else syncLoop op retryable base remaining (attempt + 1)
          ((attempt, base * 2 ^ attempt) :: acc)
      else .raised e (attempt + 1) acc.reverse

/-- Translation of `retry_with_backoff(max_retries, base_delay, exceptions, on_retry)`
applied to an operation: run attempts `0 .. max_retries - 1`. -/
def syncWrapper (op : ℕ → Attempt α ε) (retryable : ε → Bool) (base : ℚ)
    (maxRetries : ℕ) : RunOut α ε :=
  syncLoop op retryable base maxRetries 0 []

/-- The retry schedule: events `(i, base·2^i)` for `i = a, …, a+k-1`. -/
def retrySchedule (base : ℚ) (a k : ℕ) : List (ℕ × ℚ) :=
  (List.range' a k).map fun i => (i, base * 2 ^ i)

theorem retrySchedule_zero (base : ℚ) (a : ℕ) : retrySchedule base a 0 = [] := rfl

theorem retrySchedule_succ (base : ℚ) (a k : ℕ) :
    retrySchedule base a (k + 1) =
      (a, base * 2 ^ a) :: retrySchedule base (a + 1) k := by
  unfold retrySchedule
  rw [List.range'_succ]
  rfl

/-- If the first `k` attempts starting at `a` raise retryable exceptions
and `k < remaining`, the loop reaches attempt `a + k` having recorded the
`k` corresponding retry events. -/
theorem syncLoop_advance (op : ℕ → Attempt α ε) (retryable : ε → Bool)
    (base : ℚ) :
    ∀ (k remaining a : ℕ) (acc : List (ℕ × ℚ)),
      k < remaining →
      (∀ i, i < k → ∃ e, op (a + i) = .exc e ∧ retryable e = true) →
      syncLoop op retryable base remaining a acc =
        syncLoop op retryable base (remaining - k) (a + k)
          ((retrySchedule base a k).reverse ++ acc) := by
  intro k
  induction k with
  | zero => intro remaining a acc _ _; simp [retrySchedule]
  | succ k ih =>
    intro remaining a acc hk hexc
    match remaining, hk with
    | remaining + 1, hk =>
      obtain ⟨e, he, hret⟩ := hexc 0 (Nat.succ_pos k)
      rw [Nat.add_zero] at he
      have hrem : remaining ≠ 0 := by omega
      rw [syncLoop, he]
      simp only [hret, if_true, if_neg hrem]
      have hexc' : ∀ i, i < k → ∃ e, op (a + 1 + i) = .exc e ∧
          retryable e = true := by
        intro i hi
        obtain ⟨e', he', hret'⟩ := hexc (i + 1) (by omega)
        exact ⟨e', by rw [← he']; congr 1; omega, hret'⟩
      rw [ih remaining (a + 1) ((a, base * 2 ^ a) :: acc) (by omega) hexc']
      congr 1
      · omega
      · omega
      · rw [retrySchedule_succ]
        simp

/-- Successful run after `k` retryable failures. -/
theorem syncWrapper_value (op : ℕ → Attempt α ε) (retryable : ε → Bool)
    (base : ℚ) (n k : ℕ) (v : α) (hk : k < n)
    (hexc : ∀ i, i < k → ∃ e, op i = .exc e ∧ retryable e = true)
    (hok : op k = .ok v) :
    syncWrapper op retryable base n = .value v (k + 1) (retrySchedule base 0 k) := by
  unfold syncWrapper
  rw [syncLoop_advance op retryable base k n 0 [] hk (by simpa using hexc)]
  match hrem : n - k, Nat.sub_pos_of_lt hk with
  | r + 1, _ =>
    rw [syncLoop]
    rw [Nat.zero_add, hok]
    simp

/-- A non-retryable exception after `k` retryable failures propagates
immediately. -/
theorem syncWrapper_raised_nonretryable (op : ℕ → Attempt α ε)
    (retryable : ε → Bool) (base : ℚ) (n k : ℕ) (e : ε) (hk : k < n)
    (hexc : ∀ i, i < k → ∃ e', op i = .exc e' ∧ retryable e' = true)
    (he : op k = .exc e) (hret : retryable e = false) :
    syncWrapper op retryable base n =
      .raised e (k + 1) (retrySchedule base 0 k) := by
  unfold syncWrapper
  rw [syncLoop_advance op retryable base k n 0 [] hk (by simpa using hexc)]
  match hrem : n - k, Nat.sub_pos_of_lt hk with
  | r + 1, _ =>
    rw [syncLoop]
    rw [Nat.zero_add, he]
    simp [hret]

/-- When every attempt raises a retryable exception the final attempt's
exception propagates after `n - 1` backoffs. -/
theorem syncWrapper_exhausted (op : ℕ → Attempt α ε) (retryable : ε → Bool)
    (base : ℚ) (n : ℕ) (err : ℕ → ε) (hn : 1 ≤ n)
    (hexc : ∀ i, i < n → op i = .exc (err i) ∧ retryable (err i) = true) :
    syncWrapper op retryable base n =
      .raised (err (n - 1)) n (retrySchedule base 0 (n - 1)) := by
  unfold syncWrapper
  rw [syncLoop_advance op retryable base (n - 1) n 0 [] (by omega)
    (by intro i hi; exact ⟨err i, by simpa using (hexc i (by omega)).1,
      (hexc i (by omega)).2⟩)]
  match hrem : n - (n - 1), (by omega : n - (n - 1) = 1) with
  | 1, _ =>
    rw [syncLoop]
    rw [Nat.zero_add, (hexc (n - 1) (by omega)).1]
    simp [(hexc (n - 1) (by omega)).2]
    omega

/-- Every recorded retry event corresponds to an attempt that raised a
retryable exception. -/
theorem syncLoop_calls_are_failures (op : ℕ → Attempt α ε)
    (retryable : ε → Bool) (base : ℚ) :
    ∀ (remaining a : ℕ) (acc : List (ℕ × ℚ)) (i : ℕ) (d : ℚ),
      (i, d) ∈ (syncLoop op retryable base remaining a acc).calls →
      (i, d) ∈ acc ∨ ∃ e, op i = .exc e ∧ retryable e = true := by
  intro remaining
  induction remaining with
  | zero =>
    intro a acc i d h
    simp only [syncLoop, RunOut.calls] at h
    exact Or.inl (List.mem_reverse.mp h)
  | succ remaining ih =>
    intro a acc i d h
    rw [syncLoop] at h
    match hop : op a with
    | .ok v =>
      rw [hop] at h
      simp only [RunOut.calls] at h
      exact Or.inl (List.mem_reverse.mp h)
    | .exc e =>
      rw [hop] at h
      by_cases hret : retryable e = true
      · simp only [hret, if_true] at h
        by_cases hrem : remaining = 0
        · simp only [hrem, if_true, RunOut.calls] at h
          exact Or.inl (List.mem_reverse.mp h)
        · simp only [hrem, if_false] at h
          rcases ih (a + 1) ((a, base * 2 ^ a) :: acc) i d h with hmem | hfail
          · rcases List.mem_cons.mp hmem with heq | hmem'
            · refine Or.inr ⟨e, ?_, hret⟩
              rw [← hop]
              congr 1
              exact (Prod.mk.injEq _ _ _ _ ▸ heq).1
            · exact Or.inl hmem'
          · exact Or.inr hfail
      · rw [Bool.not_eq_true] at hret
        simp only [hret, Bool.false_eq_true, if_false, RunOut.calls] at h
        exact Or.inl (List.mem_reverse.mp h)

/-- Behaviour of the environment during one `_download_and_verify`
attempt (subtitle_manager.py lines 300-325): the provider download
returns `False`, or it returns `True` but `verify_language` fails, or
both succeed. -/
inductive DVEvent where
  | downloadFalse
  | verifyFail
  | downloadOk
deriving DecidableEq

/-- Control result of `_download_and_verify` per attempt: a download
returning `False` returns `False`; a verification failure raises
`Exception("Language verification failed")` (after deleting the file);
otherwise `True` is returned. -/
def dvAttempt : DVEvent → Attempt Bool Unit
  | .downloadFalse => .ok false
  | .verifyFail => .exc ()
  | .downloadOk => .ok true

/-- Filesystem operations performed by the pipeline, tagged by call
site: the provider writing the downloaded file, the
`os.remove(output_path)` after a failed language verification, and the
`os.remove(existing_path)` upgrade step in `_download_with_retry`
(`removeOldErr` is the same call when it raises and is caught). -/
inductive FsOp where
  | write (p : List Char)
  | removeVerify (p : List Char)
  | removeOld (p : List Char)
  | removeOldErr (p : List Char)
deriving DecidableEq

/-- Filesystem effect of one `_download_and_verify` attempt. -/
def dvOps (output : List Char) : DVEvent → List FsOp
  | .downloadFalse => []
  | .verifyFail => [.write output, .removeVerify output]
  | .downloadOk => [.write output]

/-- Filesystem effects of the attempts actually executed. -/
def dvFsOps (output : List Char) (dv : ℕ → DVEvent) (tried : ℕ) :
    List FsOp :=
  ((List.range tried).map fun i => dvOps output (dv i)).flatten

/-- The decorated `_download_and_verify` unit (subtitle_manager.py line
300): `retry_with_backoff(max_retries=3, exceptions=(Exception,))` with
the default `base_delay = DEFAULT_BASE_RETRY_DELAY = 1.0`; every raised
exception is retryable. -/
def download_and_verify (dv : ℕ → DVEvent) : RunOut Bool Unit :=
  syncWrapper (fun i => dvAttempt (dv i)) (fun _ => true) 1 3

/-- The result dicts of `SubtitleManager` (`{"success": ...}` with the
keys the various paths populate). -/
structure DownloadResult where
  success : Bool
  existing : Option (List Char) := none
  path : Option (List Char) := none
  language : Option (List Char) := none
  language_code : Option (List Char) := none
  provider : Option (List Char) := none
  upgraded : Option Bool := none
deriving DecidableEq

/-- Translation of `_download_with_retry` (subtitle_manager.py lines 327-366): run the
retried download+verify unit; on a `True` result delete the prior
subtitle iff it existed, its path differs from the output path and the
candidate is a perfect match (a failing delete is caught and only
logged), and report the success dict with the upgraded flag
`existing_path is not None and subtitle.is_perfect_match`; a `False`
result or a propagated exception yields `{"success": False}`. `toPlex`
abstracts `to_plex_language_code` (an external ISO-639 table lookup) and
`removeOldOk` whether `os.remove(existing_path)` succeeds. -/
def download_with_retry (providerName : List Char) (sub : SubtitleResult)
    (output : List Char) (language : List Char)
    (toPlex : List Char → List Char) (existing_path : Option (List Char))
    (dv : ℕ → DVEvent) (removeOldOk : Bool) :
    DownloadResult × List FsOp :=
  let run := download_and_verify dv
  match run with
  | .value true tried _ =>
    let delOps : List FsOp :=
      match existing_path with
      | some e =>
        if e ≠ output ∧ sub.is_perfect_match = true then
          [if removeOldOk then .removeOld e else .removeOldErr e]
        else []
      | none => []
    ({ success := true
       path := some output
       language := some language
       language_code := some (toPlex language)
       provider := some providerName
       upgraded := some (existing_path.isSome && sub.is_perfect_match) },
      dvFsOps output dv tried ++ delOps)
  | .value false tried _ => ({ success := false }, dvFsOps output dv tried)
  | .raised _ tried _ => ({ success := false }, dvFsOps output dv tried)
  | .runtimeError tried _ => ({ success := false }, dvFsOps output dv tried)

/-- Settings fields of `Settings` consumed by `SubtitleManager`. -/
structure MSettings where
  use_release_matching : Bool
  upgrade_on_perfect_match : Bool
  upgrade_on_popular : Bool
  popular_download_threshold : ℤ
deriving DecidableEq

/-- Provider-search and filesystem effects of one pipeline invocation. -/
structure Effects where
  searches : ℕ := 0
  fsOps : List FsOp := []
deriving DecidableEq

/-- Python `os.path.join` for an absolute directory and a relative file name. -/
def pathJoin (d f : List Char) : List Char := d ++ '/' :: f

/-- The candidate loop of `_try_download` (subtitle_manager.py lines
268-298): with an existing subtitle, non-perfect candidates are skipped
unless popularity-upgrade mode is on and the candidate is the top-ranked
one; each attempted candidate runs `_download_with_retry` and the first
success returns. -/
def attempt_candidates (s : MSettings) (providerName : List Char)
    (output language : List Char) (toPlex : List Char → List Char)
    (existing_path : Option (List Char))
    (dv : SubtitleResult → ℕ → DVEvent) (removeOldOk : Bool)
    (best : SubtitleResult) : List SubtitleResult → DownloadResult × List FsOp
  | [] => ({ success := false }, [])
  | c :: rest =>
    let skip : Bool :=
      if existing_path.isSome && !c.is_perfect_match then
        if !s.upgrade_on_popular then true
        else if c ≠ best then true
        else false
      else false
    if skip then
      attempt_candidates s providerName output language toPlex existing_path
        dv removeOldOk best rest
    else
      let att := download_with_retry providerName c output language toPlex
        existing_path (dv c) removeOldOk
      if att.1.success then att
      else
        let next := attempt_candidates s providerName output language toPlex
          existing_path dv removeOldOk best rest
        (next.1, att.2 ++ next.2)

/-- Translation of `_try_download` (subtitle_manager.py lines 187-298): search the one
configured provider (`searchOutcome = none` models a raised search
exception, logged and excluded), rank, apply the upgrade gates against an
existing subtitle, then attempt candidates in rank order. -/
def try_download (s : MSettings) (providerName : List Char)
    (mediaDir mediaName language : List Char)
    (toPlex : List Char → List Char) (existing_path : Option (List Char))
    (searchOutcome : Option (List SubtitleResult))
    (dv : SubtitleResult → ℕ → DVEvent) (removeOldOk : Bool) :
    DownloadResult × Effects :=
  let all_results := searchOutcome.getD []
  match rankCandidates all_results with
  | [] => ({ success := false }, { searches := 1 })
  | best :: rest =>
    let sorted := best :: rest
    let has_perfect := sorted.any fun r => r.is_perfect_match
    let output := pathJoin mediaDir
      (mediaName ++ '.' :: language ++ '.' :: "srt".toList)
    let proceed :=
      attempt_candidates s providerName output language toPlex existing_path
        dv removeOldOk best sorted
    let proceedRes : DownloadResult × Effects :=
      (proceed.1, { searches := 1, fsOps := proceed.2 })
    if existing_path.isSome ∧ has_perfect = false then
      if s.upgrade_on_popular then
        if s.popular_download_threshold ≤ best.download_count then proceedRes
        else ({ success := false, existing := existing_path }, { searches := 1 })
      else ({ success := false, existing := existing_path }, { searches := 1 })
    else if existing_path.isSome ∧ has_perfect = true ∧
        s.upgrade_on_perfect_match = false then
      ({ success := false, existing := existing_path }, { searches := 1 })
    else proceedRes

/-- Translation of `_should_skip_first_language` (subtitle_manager.py lines 28-46). -/
def should_skip_first_language (s : MSettings)
    (existing : List Char → Option (List Char)) (first_lang : List Char) :
    Option DownloadResult :=
  match existing first_lang with
  | some p =>
    if s.use_release_matching then none
    else some { success := false, existing := some p }
  | none => none

/-- Translation of `_should_skip_language_check` (subtitle_manager.py lines 48-81). -/
def should_skip_language_check (s : MSettings) (is_first : Bool)
    (first_lang : List Char) (existing : List Char → Option (List Char))
    (_current_lang : List Char) : Option DownloadResult :=
  if is_first then
    match existing first_lang with
    | some p =>
      if s.use_release_matching = false then
        some { success := false, existing := some p }
      else if s.upgrade_on_perfect_match = false then
        some { success := false, existing := some p }
      else none
    | none => none
  else none

/-- The per-language loop of `download_subtitles` (subtitle_manager.py
lines 157-185). -/
def download_loop (s : MSettings) (providerName : List Char)
    (mediaDir mediaName : List Char) (toPlex : List Char → List Char)
    (first_lang : List Char) (existing : List Char → Option (List Char))
    (searchOutcome : List Char → Option (List SubtitleResult))
    (dv : List Char → SubtitleResult → ℕ → DVEvent) (removeOldOk : Bool) :
    Bool → List (List Char) → DownloadResult × Effects
  | _, [] => ({ success := false }, {})
  | is_first, lang :: rest =>
    match should_skip_language_check s is_first first_lang existing lang with
    | some r => (r, {})
    | none =>
      let res := try_download s providerName mediaDir mediaName lang toPlex
        (existing lang) (searchOutcome lang) (dv lang) removeOldOk
      if res.1.success then res
      else
        let next := download_loop s providerName mediaDir mediaName toPlex
          first_lang existing searchOutcome dv removeOldOk false rest
        (next.1, { searches := res.2.searches + next.2.searches,
                   fsOps := res.2.fsOps ++ next.2.fsOps })

/-- Translation of `download_subtitles` (subtitle_manager.py lines 116-185). The media
directory and base name, the filesystem probe result `existing` and the
per-language provider behaviour are inputs; the shared release
fingerprint feeds only the (abstracted) provider search. -/
def download_subtitles (s : MSettings) (providerName : List Char)
    (mediaDir mediaName : List Char) (toPlex : List Char → List Char)
    (languages : List (List Char))
    (existing : List Char → Option (List Char))
    (searchOutcome : List Char → Option (List SubtitleResult))
    (dv : List Char → SubtitleResult → ℕ → DVEvent) (removeOldOk : Bool) :
    DownloadResult × Effects :=
  match languages with
  | [] => ({ success := false }, {})
  | first_lang :: _ =>
    match should_skip_first_language s existing first_lang with
    | some r => (r, {})
    | none =>
      download_loop s providerName mediaDir mediaName toPlex first_lang
        existing searchOutcome dv removeOldOk true languages

/-- Translation of `_try_set_session_subtitle` (plex/webhook.py lines 37-64): one
attempt calls `plex.set_active_session_subtitle`; a `False` return raises
(triggering retry). Decorated with
`retry_with_backoff(max_retries=MAX_SESSION_RETRIES=3,
base_delay=BASE_RETRY_WAIT_SECONDS=3, exceptions=(Exception,))`.
`sess i` is the plex call's return value on attempt `i`. -/
def try_set_session_subtitle (sess : ℕ → Bool) : RunOut Bool Unit :=
  syncWrapper (fun i => if sess i then .ok true else .exc ()) (fun _ => true)
    3 3

/-- Translation of `_try_set_session_subtitle_with_retry` (webhook.py lines 66-85):
return the value, or `False` once all retries are exhausted. -/
def try_set_session_subtitle_with_retry (sess : ℕ → Bool) : Bool :=
  match try_set_session_subtitle sess with
  | .value b _ _ => b
  | _ => false

/-- The webhook acknowledgement dict. -/
structure WebhookResponse where
  status : List Char
  code : ℕ
  subtitle : Option (List Char) := none
  language : Option (List Char) := none
  provider : Option (List Char) := none
  upgraded : Option Bool := none
deriving DecidableEq

/-- The success branch of `handle_event` (webhook.py lines 156-195):
after a successful acquisition, if auto-select is enabled set the
subtitle on the active session with retry; if that fails, call
`set_subtitle_stream` once — its boolean result (`defaultOk`) is only
logged. The response always reports status "success" with the
acquisition fields. Returns the response together with the number of
`set_active_session_subtitle` and `set_subtitle_stream` invocations. -/
def handle_success (auto_select : Bool) (sess : ℕ → Bool)
    (defaultOk : Bool) (result : DownloadResult) :
    WebhookResponse × ℕ × ℕ :=
  let resp : WebhookResponse :=
    { status := "success".toList
      code := 200
      subtitle := result.path
      language := result.language
      provider := result.provider
      upgraded := some (result.upgraded.getD false) }
  if auto_select then
    let run := try_set_session_subtitle sess
    let session_success := try_set_session_subtitle_with_retry sess
    let _ := defaultOk
    (resp, run.tried, if session_success then 0 else 1)
  else (resp, 0, 0)

/-- C7: attempts run at indices `0 .. maxRetries-1`; a retryable error
with attempts remaining waits `base·2^attempt` (invoking `on_retry` with
exactly that attempt and delay), then retries; a retryable error on the
last attempt propagates; a non-retryable error propagates immediately.
The retry events of a run after `k` retryable failures are precisely
`(i, base·2^i)` for `i < k`. -/
theorem c7_retry_semantics (α ε : Type) (op : ℕ → Attempt α ε)
    (retryable : ε → Bool) (base : ℚ) (n : ℕ) :
    (∀ k v, k < n →
      (∀ i, i < k → ∃ e, op i = .exc e ∧ retryable e = true) →
      op k = .ok v →
      syncWrapper op retryable base n =
        .value v (k + 1) (retrySchedule base 0 k)) ∧
    (∀ k e, k < n →
      (∀ i, i < k → ∃ e', op i = .exc e' ∧ retryable e' = true) →
      op k = .exc e → retryable e = false →
      syncWrapper op retryable base n =
        .raised e (k + 1) (retrySchedule base 0 k)) ∧
    (∀ err : ℕ → ε, 1 ≤ n →
      (∀ i, i < n → op i = .exc (err i) ∧ retryable (err i) = true) →
      syncWrapper op retryable base n =
        .raised (err (n - 1)) n (retrySchedule base 0 (n - 1))) :=
  ⟨fun k v hk hexc hok =>
    syncWrapper_value op retryable base n k v hk hexc hok,
   fun k e hk hexc he hret =>
    syncWrapper_raised_nonretryable op retryable base n k e hk hexc he hret,
   fun err hn hexc => syncWrapper_exhausted op retryable base n err hn hexc⟩

/-- An operation that fails (retryably) twice and then succeeds. -/
def c7op : ℕ → Attempt ℕ Unit
  | 0 => .exc ()
  | 1 => .exc ()
  | _ => .ok 42

/-- Witness for `c7_retry_semantics`: with maxRetries 3 and baseDelay 1,
two failures then success give exactly two retry events with delays 1
and 2, then the successful result on the third invocation. -/
theorem c7_retry_semantics_witness :
    syncWrapper c7op (fun _ => true) 1 3 = .value 42 3 [(0, 1), (1, 2)] := by
  have h := (c7_retry_semantics ℕ Unit c7op (fun _ => true) 1 3).1 2 42
    (by omega)
    (by
      intro i hi
      match i, hi with
      | 0, _ => exact ⟨(), rfl, rfl⟩
      | 1, _ => exact ⟨(), rfl, rfl⟩)
    rfl
  rw [h, retrySchedule_succ, retrySchedule_succ, retrySchedule_zero]
  norm_num

/-- The `retry_with_backoff` configuration as the decorator captures it. -/
structure RetryConfig where
  maxRetries : ℕ
  base : ℚ
deriving DecidableEq

/-- The setup step of `retry_with_backoff(max_retries, base_delay, ...)`
(utils/retry.py lines 16-36): the decorator validates nothing and always
returns a wrapper; `Option` marks where a setup-time rejection would be
signalled, which the source never produces. -/
def retry_with_backoff_setup (maxRetries : ℕ) (base : ℚ) :
    Option RetryConfig :=
  some { maxRetries := maxRetries, base := base }

/-- C8 counterexample: `maxRetries = 0` is accepted at setup, and
executing the wrapped operation raises the generic
`RuntimeError("Retry loop exited unexpectedly")` having never invoked
the operation — construction does not fail. -/
theorem c8_counterexample :
    retry_with_backoff_setup 0 1 = some { maxRetries := 0, base := 1 } ∧
    syncWrapper (fun _ => Attempt.ok (7 : ℕ)) (fun _ : Unit => true) 1 0 =
      .runtimeError 0 [] :=
  ⟨rfl, rfl⟩

/-- C8 amended: configuring with `maxRetries = 0` is accepted at setup;
only at execution time does the wrapper raise a generic runtime error,
with the wrapped operation never run. -/
theorem c8_zero_retries_runtime (α ε : Type) (op : ℕ → Attempt α ε)
    (retryable : ε → Bool) (base : ℚ) :
    retry_with_backoff_setup 0 base =
      some { maxRetries := 0, base := base } ∧
    syncWrapper op retryable base 0 = .runtimeError 0 [] ∧
    (syncWrapper op retryable base 0).tried = 0 :=
  ⟨rfl, rfl, rfl⟩

/-- C10: inside the retried download+verify unit, a provider download
returning `False` makes the unit return `False` on that very invocation,
with no retry event and no filesystem effect; every retry event of the
unit stems from an attempt that raised (here: a language-verification
failure, which writes then deletes the file and raises). -/
theorem c10_download_false_immediate (output : List Char)
    (dv : ℕ → DVEvent) :
    (dv 0 = .downloadFalse →
      download_and_verify dv = .value false 1 [] ∧
      dvFsOps output dv 1 = []) ∧
    (∀ i d, (i, d) ∈ (download_and_verify dv).calls → dv i = .verifyFail) ∧
    (dv 0 = .verifyFail →
      dvFsOps output dv 1 = [.write output, .removeVerify output]) := by
  refine ⟨?_, ?_, ?_⟩
  · intro h
    constructor
    · have hv := syncWrapper_value (fun i => dvAttempt (dv i)) (fun _ => true)
        1 3 0 false (by omega) (by intro i hi; omega)
        (by simp [h, dvAttempt])
      rw [download_and_verify, hv]
      rfl
    · simp [dvFsOps, h, dvOps, List.range_succ]
  · intro i d hmem
    have hmem' : (i, d) ∈ (syncLoop (fun j => dvAttempt (dv j))
        (fun _ => true) 1 3 0 []).calls := hmem
    rcases syncLoop_calls_are_failures (fun j => dvAttempt (dv j))
        (fun _ => true) 1 3 0 [] i d hmem' with hacc | ⟨e, he, _⟩
    · exact absurd hacc (List.not_mem_nil _)
    · match hdv : dv i with
      | .downloadFalse =>
        rw [hdv] at he
        exact absurd he (by simp [dvAttempt])
      | .verifyFail => rfl
      | .downloadOk =>
        rw [hdv] at he
        exact absurd he (by simp [dvAttempt])
  · intro h
    simp [dvFsOps, h, dvOps, List.range_succ]

/-- A per-attempt behaviour where the provider download returns `False`
at once. -/
def c10dv : ℕ → DVEvent := fun _ => .downloadFalse

/-- Witness for `c10_download_false_immediate`: one invocation, result
`False`, no retry events, no filesystem effect. -/
theorem c10_download_false_immediate_witness :
    download_and_verify c10dv = .value false 1 [] ∧
    dvFsOps "d/m.en.srt".toList c10dv 1 = [] :=
  (c10_download_false_immediate "d/m.en.srt".toList c10dv).1 rfl

/-- C9: with auto-select enabled, when the active-session subtitle call
fails on all 3 retried attempts, the default-subtitle-stream call is
invoked exactly once; its boolean result is only logged (the outcome is
the same whether it fails or succeeds) and the response still reports
the acquisition as success. -/
theorem c9_activation_fallback (sess : ℕ → Bool) (defaultOk : Bool)
    (result : DownloadResult) (h : ∀ i, i < 3 → sess i = false) :
    handle_success true sess defaultOk result =
      ({ status := "success".toList
         code := 200
         subtitle := result.path
         language := result.language
         provider := result.provider
         upgraded := some (result.upgraded.getD false) }, 3, 1) ∧
    handle_success true sess defaultOk result =
      handle_success true sess true result := by
  have hrun : try_set_session_subtitle sess =
      .raised () 3 (retrySchedule 3 0 2) := by
    have hx := syncWrapper_exhausted
      (fun i => if sess i then Attempt.ok true else .exc ()) (fun _ => true)
      3 3 (fun _ => ()) (by omega)
      (by intro i hi; refine ⟨?_, rfl⟩; simp [h i hi])
    rw [try_set_session_subtitle, hx]
  refine ⟨?_, rfl⟩
  simp [handle_success, try_set_session_subtitle_with_retry, hrun,
    RunOut.tried]

/-- A sample successful acquisition result. -/
def c9result : DownloadResult :=
  { success := true
    path := some "d/m.en.srt".toList
    language := some "en".toList
    language_code := some "eng".toList
    provider := some "opensubtitles".toList
    upgraded := some false }

/-- Witness for `c9_activation_fallback`: the session call failing on
every attempt yields 3 session invocations, 1 default-stream invocation
and a success response. -/
theorem c9_activation_fallback_witness :
    handle_success true (fun _ => false) false c9result =
      ({ status := "success".toList
         code := 200
         subtitle := some "d/m.en.srt".toList
         language := some "en".toList
         provider := some "opensubtitles".toList
         upgraded := some false }, 3, 1) :=
  (c9_activation_fallback (fun _ => false) false c9result
    (fun _ _ => rfl)).1

/-- The download/verify attempts never touch the prior subtitle: their
only operations are writes of the output file and the
verification-failure removal of the output file. -/
theorem removeOld_not_in_dvFsOps (output : List Char) (dv : ℕ → DVEvent)
    (t : ℕ) (x : List Char) :
    FsOp.removeOld x ∉ dvFsOps output dv t ∧
    FsOp.removeOldErr x ∉ dvFsOps output dv t := by
  constructor <;>
  · intro hmem
    simp only [dvFsOps, List.mem_flatten, List.mem_map, List.mem_range] at hmem
    obtain ⟨l, ⟨i, _, rfl⟩, hl⟩ := hmem
    cases hdv : dv i <;> rw [hdv] at hl <;> simp [dvOps] at hl

/-- C3: when the retried download+verify unit first succeeds, the
deletion of the prior subtitle for the language is attempted iff a prior
file existed, its path differs from the output path and the candidate is
a perfect match (the deleting call may itself fail, which is caught);
the success flag does not depend on whether that deletion succeeds; and
the reported dict carries the output path, language, provider and an
upgraded flag that is true iff a prior file existed and the candidate is
a perfect match. -/
theorem c3_first_success_upgrade (providerName : List Char)
    (sub : SubtitleResult) (output language : List Char)
    (toPlex : List Char → List Char) (existing_path : Option (List Char))
    (dv : ℕ → DVEvent) (removeOldOk : Bool)
    (hsucc : (download_with_retry providerName sub output language toPlex
      existing_path dv removeOldOk).1.success = true) :
    (∀ e, existing_path = some e →
      ((FsOp.removeOld e ∈ (download_with_retry providerName sub output
          language toPlex existing_path dv removeOldOk).2 ∨
        FsOp.removeOldErr e ∈ (download_with_retry providerName sub output
          language toPlex existing_path dv removeOldOk).2) ↔
        (e ≠ output ∧ sub.is_perfect_match = true))) ∧
    (download_with_retry providerName sub output language toPlex
      existing_path dv false).1.success =
      (download_with_retry providerName sub output language toPlex
        existing_path dv true).1.success ∧
    (download_with_retry providerName sub output language toPlex
        existing_path dv removeOldOk).1 =
      { success := true
        path := some output
        language := some language
        language_code := some (toPlex language)
        provider := some providerName
        upgraded := some (existing_path.isSome && sub.is_perfect_match) } := by
  have hindep : ∀ b₁ b₂ : Bool,
      (download_with_retry providerName sub output language toPlex
        existing_path dv b₁).1.success =
      (download_with_retry providerName sub output language toPlex
        existing_path dv b₂).1.success := by
    intro b₁ b₂
    cases hrun : download_and_verify dv with
    | value b t c => cases b <;> simp [download_with_retry, hrun]
    | raised e t c => simp [download_with_retry, hrun]
    | runtimeError t c => simp [download_with_retry, hrun]
  cases hrun : download_and_verify dv with
  | value b t c =>
    cases b with
    | false => rw [download_with_retry.eq_def] at hsucc; rw [hrun] at hsucc; simp at hsucc
    | true =>
      refine ⟨?_, hindep false true, ?_⟩
      · intro e he
        subst he
        rw [download_with_retry.eq_def, hrun]
        simp only
        constructor
        · intro hmem
          by_cases hcond : e ≠ output ∧ sub.is_perfect_match = true
          · exact hcond
          · exfalso
            rcases hmem with hmem | hmem <;>
            · rw [List.mem_append] at hmem
              rcases hmem with hmem | hmem
              · first
                | exact (removeOld_not_in_dvFsOps output dv t e).1 hmem
                | exact (removeOld_not_in_dvFsOps output dv t e).2 hmem
              · simp only [if_neg hcond] at hmem
                simp at hmem
        · intro hcond
          cases removeOldOk with
          | true =>
            refine Or.inl ?_
            rw [List.mem_append]
            refine Or.inr ?_
            simp [if_pos hcond]
          | false =>
            refine Or.inr ?_
            rw [List.mem_append]
            refine Or.inr ?_
            simp [if_pos hcond]
      · rw [download_with_retry.eq_def, hrun]
  | raised e t c => rw [download_with_retry.eq_def] at hsucc; rw [hrun] at hsucc; simp at hsucc
  | runtimeError t c => rw [download_with_retry.eq_def] at hsucc; rw [hrun] at hsucc; simp at hsucc

/-- A perfect-match candidate for the witness instances. -/
def c3sub : SubtitleResult :=
  { id := "9".toList
    language := "en".toList
    release := "Movie.X264".toList
    filename := "movie.srt".toList
    is_perfect_match := true
    provider := "opensubtitles".toList
    score := 1
    download_count := 10 }

/-- Witness for `c3_first_success_upgrade`: a first-attempt success for
a perfect match over an existing file at a different path attempts the
deletion and reports `upgraded = true`. -/
theorem c3_first_success_upgrade_witness :
    (FsOp.removeOld "d/m.en.ass".toList ∈
        (download_with_retry "opensubtitles".toList c3sub
          "d/m.en.srt".toList "en".toList (fun l => l)
          (some "d/m.en.ass".toList) (fun _ => .downloadOk) true).2 ∨
      FsOp.removeOldErr "d/m.en.ass".toList ∈
        (download_with_retry "opensubtitles".toList c3sub
          "d/m.en.srt".toList "en".toList (fun l => l)
          (some "d/m.en.ass".toList) (fun _ => .downloadOk) true).2) ∧
    (download_with_retry "opensubtitles".toList c3sub "d/m.en.srt".toList
        "en".toList (fun l => l) (some "d/m.en.ass".toList)
        (fun _ => .downloadOk) true).1.upgraded = some true := by
  have h := c3_first_success_upgrade "opensubtitles".toList c3sub
    "d/m.en.srt".toList "en".toList (fun l => l)
    (some "d/m.en.ass".toList) (fun _ => .downloadOk) true (by decide)
  refine ⟨(h.1 "d/m.en.ass".toList rfl).mpr (by decide), ?_⟩
  rw [h.2.2]
  decide

/-- Settings with popularity-upgrade enabled at threshold 100. -/
def c2Settings : MSettings :=
  { use_release_matching := true
    upgrade_on_perfect_match := true
    upgrade_on_popular := true
    popular_download_threshold := 100 }

/-- A non-perfect candidate with popularity 150. -/
def c2Candidate : SubtitleResult :=
  { id := "1".toList
    language := "en".toList
    release := "Movie.WEB".toList
    filename := "movie.srt".toList
    provider := "opensubtitles".toList
    download_count := 150 }

/-- The prior subtitle's path (differs from the output path). -/
def c2Existing : List Char := "d/m.en.ass".toList

/-- The output path `{mediaDir}/{mediaName}.en.srt`. -/
def c2Output : List Char :=
  pathJoin "d".toList ("m".toList ++ '.' :: "en".toList ++ '.' :: "srt".toList)

/-- The popularity-upgrade acquisition of the C2 scenario. -/
def c2Run : DownloadResult × Effects :=
  try_download c2Settings "opensubtitles".toList "d".toList "m".toList
    "en".toList (fun l => l) (some c2Existing) (some [c2Candidate])
    (fun _ _ => .downloadOk) true

/-- C2 counterexample: existing subtitle present, no perfect match,
popularity-upgrade enabled with threshold 100 and top popularity 150 —
the top candidate is downloaded and the new file written, but the prior
file is never deleted and the success dict reports `upgraded = false`,
not `true` as claimed. -/
theorem c2_counterexample :
    c2Run.1.success = true ∧
    FsOp.write c2Output ∈ c2Run.2.fsOps ∧
    c2Run.1.upgraded = some false ∧
    c2Run.1.upgraded ≠ some true ∧
    FsOp.removeOld c2Existing ∉ c2Run.2.fsOps ∧
    FsOp.removeOldErr c2Existing ∉ c2Run.2.fsOps := by
  decide

/-- C2 amended: with an existing subtitle, no perfect match among the
candidates, popularity-upgrade enabled and the top-ranked candidate's
popularity at or above the threshold, acquisition downloads the top
candidate and writes the new file, but reports `upgraded = false` and
never deletes the prior subtitle file (at most overwrites it when the
paths coincide). -/
theorem c2_popular_upgrade_no_delete (s : MSettings)
    (providerName mediaDir mediaName language : List Char)
    (toPlex : List Char → List Char) (e : List Char)
    (results : List SubtitleResult) (dv : SubtitleResult → ℕ → DVEvent)
    (removeOldOk : Bool) (best : SubtitleResult)
    (rest : List SubtitleResult)
    (hrank : rankCandidates results = best :: rest)
    (hnoperf : ∀ r ∈ results, r.is_perfect_match = false)
    (hpop : s.upgrade_on_popular = true)
    (hth : s.popular_download_threshold ≤ best.download_count)
    (hdl : dv best 0 = .downloadOk) :
    (try_download s providerName mediaDir mediaName language toPlex
        (some e) (some results) dv removeOldOk).1.success = true ∧
    (try_download s providerName mediaDir mediaName language toPlex
        (some e) (some results) dv removeOldOk).1.upgraded = some false ∧
    (try_download s providerName mediaDir mediaName language toPlex
        (some e) (some results) dv removeOldOk).1.path =
      some (pathJoin mediaDir
        (mediaName ++ '.' :: language ++ '.' :: "srt".toList)) ∧
    FsOp.write (pathJoin mediaDir
        (mediaName ++ '.' :: language ++ '.' :: "srt".toList)) ∈
      (try_download s providerName mediaDir mediaName language toPlex
        (some e) (some results) dv removeOldOk).2.fsOps ∧
    (∀ x, FsOp.removeOld x ∉
        (try_download s providerName mediaDir mediaName language toPlex
          (some e) (some results) dv removeOldOk).2.fsOps ∧
      FsOp.removeOldErr x ∉
        (try_download s providerName mediaDir mediaName language toPlex
          (some e) (some results) dv removeOldOk).2.fsOps) := by
  have hbest : best.is_perfect_match = false := by
    have hmem : best ∈ rankCandidates results := by
      rw [hrank]; exact List.mem_cons_self _ _
    exact hnoperf best ((List.perm_insertionSort keyLe results).mem_iff.mp hmem)
  have hnoperf' : ∀ r ∈ best :: rest, r.is_perfect_match = false := by
    intro r hr
    have : r ∈ rankCandidates results := by rw [hrank]; exact hr
    exact hnoperf r ((List.perm_insertionSort keyLe results).mem_iff.mp this)
  have hanyf : (best :: rest).any (fun r => r.is_perfect_match) = false := by
    rw [List.any_eq_false]
    intro r hr
    simp [hnoperf' r hr]
  have hdvrun : download_and_verify (dv best) = .value true 1 [] := by
    have hv := syncWrapper_value (fun i => dvAttempt (dv best i))
      (fun _ => true) 1 3 0 true (by omega) (by intro i hi; omega)
      (by simp [hdl, dvAttempt])
    rw [download_and_verify, hv]
    rfl
  have hatt : download_with_retry providerName best
      (pathJoin mediaDir (mediaName ++ '.' :: language ++ '.' :: "srt".toList))
      language toPlex (some e) (dv best) removeOldOk =
      ({ success := true
         path := some (pathJoin mediaDir
           (mediaName ++ '.' :: language ++ '.' :: "srt".toList))
         language := some language
         language_code := some (toPlex language)
         provider := some providerName
         upgraded := some false },
        [.write (pathJoin mediaDir
          (mediaName ++ '.' :: language ++ '.' :: "srt".toList))]) := by
    rw [download_with_retry.eq_def, hdvrun]
    simp only [hbest]
    simp [dvFsOps, List.range_succ, hdl, dvOps]
  have hloop : attempt_candidates s providerName
      (pathJoin mediaDir (mediaName ++ '.' :: language ++ '.' :: "srt".toList))
      language toPlex (some e) dv removeOldOk best (best :: rest) =
      ({ success := true
         path := some (pathJoin mediaDir
           (mediaName ++ '.' :: language ++ '.' :: "srt".toList))
         language := some language
         language_code := some (toPlex language)
         provider := some providerName
         upgraded := some false },
        [.write (pathJoin mediaDir
          (mediaName ++ '.' :: language ++ '.' :: "srt".toList))]) := by
    rw [attempt_candidates]
    simp only [hbest, hpop, Option.isSome_some, Bool.not_false, Bool.and_self,
      Bool.not_true, if_true, if_false, ne_eq, not_true_eq_false, ite_false,
      ite_true]
    rw [if_neg (by simp)]
    rw [hatt]
    simp
  have htd : try_download s providerName mediaDir mediaName language toPlex
      (some e) (some results) dv removeOldOk =
      ({ success := true
         path := some (pathJoin mediaDir
           (mediaName ++ '.' :: language ++ '.' :: "srt".toList))
         language := some language
         language_code := some (toPlex language)
         provider := some providerName
         upgraded := some false },
        { searches := 1
          fsOps := [.write (pathJoin mediaDir
            (mediaName ++ '.' :: language ++ '.' :: "srt".toList))] }) := by
    rw [try_download.eq_def]
    simp only [Option.getD_some]
    rw [hrank]
    simp only [hanyf, Option.isSome_some, hpop, if_true, and_true, true_and,
      and_false, false_and, if_false, ite_true, ite_false]
    rw [if_pos hth, hloop]
  rw [htd]
  refine ⟨rfl, rfl, rfl, List.mem_singleton.mpr rfl, ?_⟩
  intro x
  constructor <;> simp

/-- Witness for `c2_popular_upgrade_no_delete` on the concrete C2
scenario (threshold 100, popularity 150): success with
`upgraded = false`. -/
theorem c2_popular_upgrade_no_delete_witness :
    (try_download c2Settings "opensubtitles".toList "d".toList "m".toList
        "en".toList (fun l => l) (some c2Existing) (some [c2Candidate])
        (fun _ _ => .downloadOk) true).1.success = true ∧
    (try_download c2Settings "opensubtitles".toList "d".toList "m".toList
        "en".toList (fun l => l) (some c2Existing) (some [c2Candidate])
        (fun _ _ => .downloadOk) true).1.upgraded = some false := by
  have h := c2_popular_upgrade_no_delete c2Settings "opensubtitles".toList
    "d".toList "m".toList "en".toList (fun l => l) c2Existing [c2Candidate]
    (fun _ _ => .downloadOk) true c2Candidate [] (by decide) (by decide)
    rfl (by decide) rfl
  exact ⟨h.1, h.2.1⟩

/-- C4: when the primary language already has an existing subtitle and
release-matching or perfect-match-upgrade is disabled, the pipeline
returns `{"success": False, "existing": path}` with no provider search
and no filesystem effect, for any behaviour of the providers and any
secondary languages. -/
theorem c4_kept_existing_no_search (s : MSettings)
    (providerName mediaDir mediaName : List Char)
    (toPlex : List Char → List Char) (first : List Char)
    (rest : List (List Char))
    (existing : List Char → Option (List Char))
    (searchOutcome : List Char → Option (List SubtitleResult))
    (dv : List Char → SubtitleResult → ℕ → DVEvent) (removeOldOk : Bool)
    (p : List Char) (hex : existing first = some p)
    (hdis : s.use_release_matching = false ∨
      s.upgrade_on_perfect_match = false) :
    download_subtitles s providerName mediaDir mediaName toPlex
      (first :: rest) existing searchOutcome dv removeOldOk =
      ({ success := false, existing := some p },
       { searches := 0, fsOps := [] }) := by
  by_cases hrm : s.use_release_matching = false
  · rw [download_subtitles.eq_def]
    simp only [should_skip_first_language, hex, hrm, if_false, ite_false,
      Bool.false_eq_true]
  · have hup : s.upgrade_on_perfect_match = false := by
      rcases hdis with h | h
      · exact absurd h hrm
      · exact h
    have hrm' : s.use_release_matching = true := by
      rcases Bool.eq_false_or_eq_true s.use_release_matching with h | h
      · exact h
      · exact absurd h hrm
    rw [download_subtitles.eq_def]
    simp only [should_skip_first_language, hex, hrm', if_true, ite_true]
    rw [download_loop.eq_def]
    simp only [should_skip_language_check, hex, hrm', hup, if_true, ite_true,
      Bool.true_eq_false, if_false, ite_false]

/-- Witness for `c4_kept_existing_no_search`: primary "en" with an
existing subtitle and release-matching disabled gives the kept-existing
result with zero provider searches. -/
theorem c4_kept_existing_no_search_witness :
    download_subtitles
      { use_release_matching := false, upgrade_on_perfect_match := true,
        upgrade_on_popular := true, popular_download_threshold := 100 }
      "opensubtitles".toList "d".toList "m".toList (fun l => l)
      ["en".toList, "nl".toList]
      (fun _ => some "d/m.en.srt".toList) (fun _ => none)
      (fun _ _ _ => .downloadOk) true =
      ({ success := false, existing := some "d/m.en.srt".toList },
       { searches := 0, fsOps := [] }) :=
  c4_kept_existing_no_search
    { use_release_matching := false, upgrade_on_perfect_match := true,
      upgrade_on_popular := true, popular_download_threshold := 100 }
    "opensubtitles".toList "d".toList "m".toList (fun l => l) "en".toList
    ["nl".toList] (fun _ => some "d/m.en.srt".toList) (fun _ => none)
    (fun _ _ _ => .downloadOk) true "d/m.en.srt".toList rfl (Or.inl rfl)

end Plexsubs
